import Mathlib

/-!
Verification development for the layered cipher verification engine
(`Game/app/utils.py`, `Game/tool.py`, `Game/ltool.py`).

Modelling conventions:
* A Python string is a list of Unicode codepoints, `PyStr := List Nat`.
  The character-class predicates (`isalpha`, `isupper`, `islower`, `isspace`)
  and the `upper()` mapping are embedded exactly for the Latin-1 range
  (codepoints < 256), which covers every character the repository's data
  and this development's inputs use; codepoints ≥ 256 are outside the model
  and theorems that depend on character classes restrict to the Latin-1
  fragment explicitly.
* Python `bytes` values are `List Nat` of byte values.
* Fallible operations return `Option`; `none` models the source's
  `try/except`-to-`None` convention.
* The AES and RSA primitives themselves are calls into the PyCryptodome
  library, which is not part of this repository; the source functions that
  wrap them (`aes_decrypt`, `rsa_decrypt`, the OAEP encrypt call) are
  therefore modelled as abstract function parameters with the same
  input/output contract, while everything the repository itself computes
  (truncation, base64 framing, dispatch, comparisons, the Vigenère cipher)
  is embedded concretely.
-/

/-- A Python string, as its list of Unicode codepoints. -/
abbrev PyStr := List Nat

/-- Codepoints of a Lean string literal, for writing concrete inputs. -/
def pystr (s : String) : PyStr := s.data.map Char.toNat

/-- Python `str.isalpha` for one codepoint, exact on the Latin-1 range
(Unicode category L there: ASCII letters, ª µ º, À-Ö, Ø-ö, ø-ÿ);
codepoints ≥ 256 are outside the model. -/
def pyIsAlpha (c : Nat) : Bool :=
  (65 ≤ c && c ≤ 90) || (97 ≤ c && c ≤ 122) ||
  c == 170 || c == 181 || c == 186 ||
  (192 ≤ c && c ≤ 214) || (216 ≤ c && c ≤ 246) || (248 ≤ c && c ≤ 255)

/-- Python `str.isupper` for one codepoint (Latin-1 fragment). -/
def pyIsUpper (c : Nat) : Bool :=
  (65 ≤ c && c ≤ 90) || (192 ≤ c && c ≤ 214) || (216 ≤ c && c ≤ 222)

/-- Python `str.upper` for one Latin-1 codepoint.  `ß` (223) expands to
`"SS"`, `µ` (181) maps to Greek capital Mu (924), `ÿ` (255) maps to `Ÿ`
(376); ª and º have no uppercase form and are unchanged. -/
def pyUpperChar (c : Nat) : List Nat :=
  if 97 ≤ c && c ≤ 122 then [c - 32]
  else if c == 181 then [924]
  else if c == 223 then [83, 83]
  else if (224 ≤ c && c ≤ 246) || (248 ≤ c && c ≤ 254) then [c - 32]
  else if c == 255 then [376]
  else [c]

/-- Python `str.upper` on a Latin-1 string. -/
def pyUpper (s : PyStr) : PyStr := s.flatMap pyUpperChar

/-- Python `str.isspace` for one codepoint (Latin-1 fragment:
TAB..CR, FS..US, space, NEL, NBSP). -/
def pyIsSpace (c : Nat) : Bool :=
  (9 ≤ c && c ≤ 13) || (28 ≤ c && c ≤ 32) || c == 133 || c == 160

/-- Python `str.strip()`: remove leading and trailing whitespace. -/
def pyStrip (s : PyStr) : PyStr :=
  ((s.dropWhile pyIsSpace).reverse.dropWhile pyIsSpace).reverse

/-- Is the codepoint an ASCII digit. -/
def pyIsDigit (c : Nat) : Bool := 48 ≤ c && c ≤ 57

/-- Digit run of a Python integer literal after its first digit:
single underscores are allowed between digits only. -/
def pyDigitsCore : List Nat → Nat → Option Nat
  | [], acc => some acc
  | 95 :: c :: rest, acc =>
      if pyIsDigit c then pyDigitsCore rest (acc * 10 + (c - 48)) else none
  | [95], _ => none
  | c :: rest, acc =>
      if pyIsDigit c then pyDigitsCore rest (acc * 10 + (c - 48)) else none

/-- Nonempty digit run (first char must be a digit). -/
def pyDigitsStart : List Nat → Option Nat
  | [] => none
  | c :: rest => if pyIsDigit c then pyDigitsCore rest (c - 48) else none

/-- Python `int(s)` on a decimal string: strips whitespace, allows one
leading `+` or `-`, then ASCII digits with optional single underscore
separators; `none` models the `ValueError`.  (Non-ASCII digits are outside
the model.) -/
def pyInt? (s : PyStr) : Option Int :=
  match pyStrip s with
  | 43 :: rest => (pyDigitsStart rest).map Int.ofNat
  | 45 :: rest => (pyDigitsStart rest).map (fun n => -(n : Int))
  | rest => (pyDigitsStart rest).map Int.ofNat

/-- Python `s.split(sep, 1)` when the separator occurs: the parts before
and after the first occurrence; `none` when the separator is absent
(Python would return a one-element list). -/
def pySplitFirst (sep : Nat) : PyStr → Option (PyStr × PyStr)
  | [] => none
  | c :: rest =>
      if c = sep then some ([], rest)
      else (pySplitFirst sep rest).map (fun p => (c :: p.1, p.2))

/-- The codepoints of the literal `Flag{`. -/
def flagPre : PyStr := pystr "Flag\x7b"

/-- Token parsing and identity binding, `app/utils.py` lines 137-168
(inline in `verify_challenge_solution`): strip, require the `Flag\x7b...\x7d`
envelope, split the content at the first underscore, parse the first part
with `int`, and require it to equal the challenge id.  Returns the answer
payload on success. -/
def parseFlagPayload (s : PyStr) (cid : Int) : Option PyStr :=
  if flagPre.isPrefixOf (pyStrip s) ∧ (pyStrip s).getLast? = some 125 then
    match pySplitFirst 95 (((pyStrip s).drop 5).dropLast) with
    | none => none
    | some (idStr, ans) =>
        match pyInt? idStr with
        | none => none
        | some n => if n = cid then some ans else none
  else none

/-- Builds the token `Flag\x7b<idStr>_<payload>\x7d` from raw pieces. -/
def mkFlagToken (idStr payload : PyStr) : PyStr :=
  flagPre ++ idStr ++ 95 :: (payload ++ [125])

example : parseFlagPayload (pystr "Flag\x7b7_hello\x7d") 7 = some (pystr "hello") := by decide
example : parseFlagPayload (pystr "Flag\x7b7_hello\x7d") 8 = none := by decide
example : parseFlagPayload (pystr "  Flag\x7b+007_a_b\x7d ") 7 = some (pystr "a_b") := by decide

/-! ### Vigenère cipher -/

/-- Key normalization shared by all Vigenère routines:
`''.join(c for c in key if c.isalpha()).upper()`. -/
def vigNormKey (key : PyStr) : PyStr := pyUpper (key.filter pyIsAlpha)

/-- The per-character loop of `vigenere_encrypt` (`tool.py` lines 72-86) and
`vigenere_encrypt_layer` (`ltool.py` lines 63-77): letters are shifted
forward by `ord(key[key_index % len(key)]) - ord('A')` modulo 26 in their
own case, the key index advancing only on letters; everything else passes
through. -/
def vigEncLoop (key : PyStr) : Nat → PyStr → PyStr
  | _, [] => []
  | ki, c :: rest =>
      if pyIsAlpha c then
        let shift : Int := (key.getD (ki % key.length) 65 : Nat) - 65
        let e : Nat :=
          if pyIsUpper c then (((c : Int) - 65 + shift) % 26 + 65).toNat
          else (((c : Int) - 97 + shift) % 26 + 97).toNat
        e :: vigEncLoop key (ki + 1) rest
      else c :: vigEncLoop key ki rest

/-- The per-character loop of `vigenere_decrypt` (`app/utils.py` lines
55-69): the inverse shift, same key-index discipline. -/
def vigDecLoop (key : PyStr) : Nat → PyStr → PyStr
  | _, [] => []
  | ki, c :: rest =>
      if pyIsAlpha c then
        let shift : Int := (key.getD (ki % key.length) 65 : Nat) - 65
        let d : Nat :=
          if pyIsUpper c then (((c : Int) - 65 - shift) % 26 + 65).toNat
          else (((c : Int) - 97 - shift) % 26 + 97).toNat
        d :: vigDecLoop key (ki + 1) rest
      else c :: vigDecLoop key ki rest

/-- `vigenere_decrypt` (`app/utils.py` lines 38-74): normalizes the key,
fails (`None`) when no letters remain, otherwise decrypts.  (The
`bytes`-to-`str` coercions at the top only apply to byte inputs, which the
model's `PyStr` type already excludes.) -/
def vigenere_decrypt (ciphertext key : PyStr) : Option PyStr :=
  let k := vigNormKey key
  if k = [] then none else some (vigDecLoop k 0 ciphertext)

/-- Result record of `vigenere_encrypt` (the `ciphertext`/`key` entries of
the returned dict; the `iv` entry is always `None`). -/
structure VigResult where
  ciphertext : PyStr
  key : PyStr
  deriving Repr, DecidableEq

/-- `vigenere_encrypt` (`tool.py` lines 51-92) with the key supplied (the
`key=None` branch draws 8 random letters; callers in this development
always pass the drawn key explicitly): normalizes the key, substitutes
`"DEFAULTKEY"` when no letters remain, encrypts, and returns the
ciphertext together with the clean key actually used. -/
def vigenere_encrypt (plaintext key : PyStr) : VigResult :=
  let k := vigNormKey key
  let k := if k = [] then pystr "DEFAULTKEY" else k
  ⟨vigEncLoop k 0 plaintext, k⟩

/-- `vigenere_encrypt_layer` (`ltool.py` lines 43-84) with the 10 drawn
letters supplied: same normalization (fallback `"KEY"`), returns the raw
ciphertext string and the layer config `\x7b'key': key\x7d`. -/
def vigenere_encrypt_layer (data key : PyStr) : PyStr × PyStr :=
  let k := vigNormKey key
  let k := if k = [] then pystr "KEY" else k
  (vigEncLoop k 0 data, k)

example :
    (vigenere_encrypt (pystr "Attack at Dawn!") (pystr "LEMON")).ciphertext
      = pystr "Lxfopv ef Rnhr!" := by decide
example :
    vigenere_decrypt (pystr "Lxfopv ef Rnhr!") (pystr "LEMON")
      = some (pystr "Attack at Dawn!") := by decide

/-! ### Base64 and UTF-8, as used by the Python standard library calls -/

/-- Character (codepoint) of a base64 sextet value. -/
def b64ValChar (n : Nat) : Nat :=
  if n < 26 then n + 65
  else if n < 52 then n + 71
  else if n < 62 then n - 4
  else if n = 62 then 43
  else 47

/-- Sextet value of a base64 alphabet character; `none` off the alphabet. -/
def b64CharVal? (c : Nat) : Option Nat :=
  if 65 ≤ c && c ≤ 90 then some (c - 65)
  else if 97 ≤ c && c ≤ 122 then some (c - 71)
  else if 48 ≤ c && c ≤ 57 then some (c + 4)
  else if c = 43 then some 62
  else if c = 47 then some 63
  else none

/-- `base64.b64encode` on a byte list, producing the codepoints of the
encoded ASCII string. -/
def b64encodeBytes : List Nat → PyStr
  | [] => []
  | [a] => [b64ValChar (a / 4), b64ValChar (a % 4 * 16), 61, 61]
  | [a, b] => [b64ValChar (a / 4), b64ValChar (a % 4 * 16 + b / 16),
               b64ValChar (b % 16 * 4), 61]
  | a :: b :: c :: rest =>
      b64ValChar (a / 4) :: b64ValChar (a % 4 * 16 + b / 16) ::
      b64ValChar (b % 16 * 4 + c / 64) :: b64ValChar (c % 64) ::
      b64encodeBytes rest

/-- Quad-wise decoding of a base64 string already filtered to alphabet and
padding characters: `=` is accepted only as the final one or two
characters (as the Python codec produces it); anything else, including a
length not a multiple of 4, is an error. -/
def b64Quads : List Nat → Option (List Nat)
  | [] => some []
  | c1 :: c2 :: c3 :: c4 :: rest =>
      if c3 = 61 then
        if c4 = 61 ∧ rest = [] then
          match b64CharVal? c1, b64CharVal? c2 with
          | some v1, some v2 => some [v1 * 4 + v2 / 16]
          | _, _ => none
        else none
      else if c4 = 61 then
        if rest = [] then
          match b64CharVal? c1, b64CharVal? c2, b64CharVal? c3 with
          | some v1, some v2, some v3 =>
              some [v1 * 4 + v2 / 16, v2 % 16 * 16 + v3 / 4]
          | _, _, _ => none
        else none
      else
        match b64CharVal? c1, b64CharVal? c2, b64CharVal? c3, b64CharVal? c4 with
        | some v1, some v2, some v3, some v4 =>
            (b64Quads rest).map (fun tail =>
              (v1 * 4 + v2 / 16) :: (v2 % 16 * 16 + v3 / 4) :: (v3 % 4 * 64 + v4) :: tail)
        | _, _, _, _ => none
  | _ => none

/-- `base64.b64decode(s)` with the default `validate=False`: characters
outside the alphabet (other than `=`) are discarded first, then the
remainder is decoded; `none` models the `binascii.Error` raised on bad
grouping or padding. -/
def b64decodeBytes? (s : List Nat) : Option (List Nat) :=
  b64Quads (s.filter (fun c => (b64CharVal? c).isSome || c == 61))

example : b64encodeBytes (pystr "hi") = pystr "aGk=" := by decide
example : b64decodeBytes? (pystr "aGk=") = some (pystr "hi") := by decide
example : b64decodeBytes? (pystr "aWJz") = some (pystr "ibs") := by decide
example : b64decodeBytes? (pystr "hi") = none := by decide

/-- Is the byte a UTF-8 continuation byte. -/
def utf8Cont (b : Nat) : Bool := 128 ≤ b && b ≤ 191

/-- Fuel-driven core of UTF-8 `errors='ignore'` decoding; the fuel is an
upper bound on the number of decoding steps (each step consumes at least
one byte, so the input length is always enough fuel). -/
def utf8DecIgnoreF : Nat → List Nat → PyStr
  | 0, _ => []
  | _ + 1, [] => []
  | fuel + 1, b :: rest =>
      if b < 128 then b :: utf8DecIgnoreF fuel rest
      else if 194 ≤ b && b ≤ 223 then
        match rest with
        | b2 :: rest2 =>
            if utf8Cont b2 then ((b - 192) * 64 + (b2 - 128)) :: utf8DecIgnoreF fuel rest2
            else utf8DecIgnoreF fuel rest
        | [] => []
      else if 224 ≤ b && b ≤ 239 then
        match rest with
        | b2 :: rest2 =>
            if (utf8Cont b2 && !(b == 224 && b2 < 160) && !(b == 237 && 159 < b2)) then
              match rest2 with
              | b3 :: rest3 =>
                  if utf8Cont b3 then
                    ((b - 224) * 4096 + (b2 - 128) * 64 + (b3 - 128)) :: utf8DecIgnoreF fuel rest3
                  else utf8DecIgnoreF fuel rest2
              | [] => []
            else utf8DecIgnoreF fuel rest
        | [] => []
      else if 240 ≤ b && b ≤ 244 then
        match rest with
        | b2 :: rest2 =>
            if (utf8Cont b2 && !(b == 240 && b2 < 144) && !(b == 244 && 143 < b2)) then
              match rest2 with
              | b3 :: rest3 =>
                  if utf8Cont b3 then
                    match rest3 with
                    | b4 :: rest4 =>
                        if utf8Cont b4 then
                          ((b - 240) * 262144 + (b2 - 128) * 4096 + (b3 - 128) * 64 + (b4 - 128)) ::
                            utf8DecIgnoreF fuel rest4
                        else utf8DecIgnoreF fuel rest3
                    | [] => []
                  else utf8DecIgnoreF fuel rest2
              | [] => []
            else utf8DecIgnoreF fuel rest
        | [] => []
      else utf8DecIgnoreF fuel rest

/-- UTF-8 decoding with `errors='ignore'` (as in `ltool.py` lines 167 and
193): malformed bytes are dropped.  Skipping one byte at each malformed
position yields the same output string as Python's maximal-subpart
skipping, since dropped bytes produce nothing. -/
def utf8DecodeIgnore (l : List Nat) : PyStr := utf8DecIgnoreF l.length l

/-- UTF-8 encoding of a codepoint string (`str.encode('utf-8')`). -/
def utf8EncodeChar (c : Nat) : List Nat :=
  if c < 128 then [c]
  else if c < 2048 then [192 + c / 64, 128 + c % 64]
  else if c < 65536 then [224 + c / 4096, 128 + c / 64 % 64, 128 + c % 64]
  else [240 + c / 262144, 128 + c / 4096 % 64, 128 + c / 64 % 64, 128 + c % 64]

/-- `str.encode('utf-8')` on a string. -/
def utf8Encode (s : PyStr) : List Nat := s.flatMap utf8EncodeChar

/-- Fuel-driven core of strict UTF-8 decoding. -/
def utf8DecStrictF : Nat → List Nat → Option PyStr
  | 0, _ => none
  | _ + 1, [] => some []
  | fuel + 1, b :: rest =>
      if b < 128 then (utf8DecStrictF fuel rest).map (b :: ·)
      else if 194 ≤ b && b ≤ 223 then
        match rest with
        | b2 :: rest2 =>
            if utf8Cont b2 then
              (utf8DecStrictF fuel rest2).map (((b - 192) * 64 + (b2 - 128)) :: ·)
            else none
        | [] => none
      else if 224 ≤ b && b ≤ 239 then
        match rest with
        | b2 :: b3 :: rest3 =>
            if (utf8Cont b2 && !(b == 224 && b2 < 160) && !(b == 237 && 159 < b2)) && utf8Cont b3 then
              (utf8DecStrictF fuel rest3).map
                (((b - 224) * 4096 + (b2 - 128) * 64 + (b3 - 128)) :: ·)
            else none
        | _ => none
      else if 240 ≤ b && b ≤ 244 then
        match rest with
        | b2 :: b3 :: b4 :: rest4 =>
            if (utf8Cont b2 && !(b == 240 && b2 < 144) && !(b == 244 && 143 < b2)) &&
               utf8Cont b3 && utf8Cont b4 then
              (utf8DecStrictF fuel rest4).map
                (((b - 240) * 262144 + (b2 - 128) * 4096 + (b3 - 128) * 64 + (b4 - 128)) :: ·)
            else none
        | _ => none
      else none

/-- Strict UTF-8 decoding (`bytes.decode('utf-8')` with default errors):
any malformed byte makes the whole decode fail, modelling the
`UnicodeDecodeError`.  (An empty byte list needs no fuel and decodes to
the empty string.) -/
def utf8DecodeStrict? (l : List Nat) : Option PyStr :=
  match l with
  | [] => some []
  | _ => utf8DecStrictF l.length l

example : utf8DecodeIgnore [104, 105] = pystr "hi" := by decide
example : utf8DecodeIgnore [133, 233, 101] = pystr "e" := by decide
example : utf8Encode (pystr "é") = [195, 169] := by decide
example : utf8DecodeStrict? [195, 169] = some (pystr "é") := by decide
example : utf8DecodeStrict? [233] = none := by decide

/-! ### JSON values and the challenge record -/

/-- A parsed JSON value, as handled by `json.loads` in
`verify_challenge_solution`: strings, numbers, arrays, objects. -/
inductive JVal where
  | str (s : PyStr)
  | num (n : Int)
  | arr (l : List JVal)
  | obj (fields : List (String × JVal))
  deriving Repr

/-- Python `dict.get` on a JSON object (with `json.loads` duplicate-key
semantics: the last occurrence wins). -/
def pyDictGet (l : List (String × JVal)) (k : String) : Option JVal :=
  ((l.filter (fun p => p.1 == k)).getLast?).map Prod.snd

/-- `k in config` membership test. -/
def pyHasKey (l : List (String × JVal)) (k : String) : Bool :=
  (pyDictGet l k).isSome

/-- Python truthiness of a JSON value. -/
def jTruthy : JVal → Bool
  | .str s => !s.isEmpty
  | .num n => n != 0
  | .arr l => !l.isEmpty
  | .obj l => !l.isEmpty

/-- Truthiness of `dict.get`'s result (`None` is falsy). -/
def optTruthy : Option JVal → Bool
  | none => false
  | some v => jTruthy v

/-- The external decryption primitives used by `verify_challenge_solution`.
`aes_decrypt` (`app/utils.py` lines 18-36) and `rsa_decrypt` (lines 76-94)
are wrappers around PyCryptodome library calls guarded by
`try/except → None`; they are modelled as abstract functions returning
`Option` (arguments: data blob, then key material as in the source). -/
structure DecOracles where
  aesDecrypt : PyStr → PyStr → PyStr → Option PyStr
  rsaDecrypt : PyStr → PyStr → Option PyStr

/-- `layer_keys` (`app/utils.py` line 197): every entry of the layer
config except `type`. -/
def layerParams (fields : List (String × JVal)) : List (String × JVal) :=
  fields.filter (fun p => !(p.1 == "type"))

/-- One iteration of the layered decryption loop of
`verify_challenge_solution` (`app/utils.py` lines 195-255): dispatch on
the layer's `type` tag, check the data blob and the required parameters
for truthiness, and run the corresponding decryption; any failure gives
`none` (which makes the loop below stop, as `break` does).

A parameter value that is present and truthy but not a string is passed
to the decryption helper, where the library call raises and is caught,
yielding `None`; this is modelled as `none`.  (For the `vigenere` arm a
non-string key would actually be iterated by Python's `str`-level
machinery; no configuration in this development exercises that, and the
model treats it as a failure.)  A non-object layer entry would raise an
uncaught `AttributeError` in the source and is outside the model (the
theorems below restrict layer lists to objects). -/
def decryptLayer1 (O : DecOracles) (blob : PyStr) : JVal → Option PyStr
  | .obj fields =>
      match pyDictGet fields "type" with
      | some (.str t) =>
          if t = pystr "aes" then
            if blob ≠ [] ∧ optTruthy (pyDictGet (layerParams fields) "key") ∧
                optTruthy (pyDictGet (layerParams fields) "iv") then
              match pyDictGet (layerParams fields) "key",
                  pyDictGet (layerParams fields) "iv" with
              | some (.str ks), some (.str ivs) => O.aesDecrypt blob ks ivs
              | _, _ => none
            else none
          else if t = pystr "vigenere" then
            if blob ≠ [] ∧ optTruthy (pyDictGet (layerParams fields) "key") then
              match pyDictGet (layerParams fields) "key" with
              | some (.str ks) => vigenere_decrypt blob ks
              | _ => none
            else none
          else if t = pystr "rsa" then
            if blob ≠ [] ∧ optTruthy (pyDictGet (layerParams fields) "private_key") then
              match pyDictGet (layerParams fields) "private_key" with
              | some (.str pks) => O.rsaDecrypt blob pks
              | _ => none
            else none
          else none
      | _ => none
  | _ => none

/-- The layered decryption loop (`app/utils.py` lines 195-263): the layer
list is traversed in its stored order, each successful layer's output
becoming the next layer's input; the first failing layer stops the loop
and the whole decryption reports failure. -/
def decryptLayers (O : DecOracles) (blob : PyStr) : List JVal → Option PyStr
  | [] => some blob
  | l :: rest =>
      match decryptLayer1 O blob l with
      | some r => decryptLayers O r rest
      | none => none

/-- The `config_json` column as seen by verification: absent/empty
(falsy), present but not valid JSON, or a parsed JSON object.  (A valid
JSON value that is not an object — e.g. a bare list — would make
`config.get("layers")` raise an uncaught `AttributeError` in the source
and is outside the model.) -/
inductive ConfigJson where
  | absent
  | invalid
  | obj (fields : List (String × JVal))
  deriving Repr

/-- The challenge record fields read by `verify_challenge_solution`.
`challenge_data = []` models both `None` and the empty string (both
falsy); `encryption_type = none` models SQL `NULL`. -/
structure Challenge where
  id : Int
  category : PyStr
  challenge_data : PyStr
  encryption_type : Option PyStr
  config : ConfigJson
  flag : PyStr

/-- The single-layer fallback's decryption
(`app/utils.py` lines 277-313): dispatch on `encryption_type`; AES needs
`key` and `iv` present in the config (membership, not truthiness),
Vigenère needs `key`, RSA needs `private_key`; unknown types produce no
decryption. -/
def singleLayerDecrypt (O : DecOracles) (c : Challenge)
    (cfg : List (String × JVal)) : Option PyStr :=
  match c.encryption_type with
  | some t =>
      if t = pystr "aes" then
        if c.challenge_data ≠ [] ∧ pyHasKey cfg "key" ∧ pyHasKey cfg "iv" then
          match pyDictGet cfg "key", pyDictGet cfg "iv" with
          | some (.str ks), some (.str ivs) => O.aesDecrypt c.challenge_data ks ivs
          | _, _ => none
        else none
      else if t = pystr "vigenere" then
        if c.challenge_data ≠ [] ∧ pyHasKey cfg "key" then
          match pyDictGet cfg "key" with
          | some (.str ks) => vigenere_decrypt c.challenge_data ks
          | _ => none
        else none
      else if t = pystr "rsa" then
        if c.challenge_data ≠ [] ∧ pyHasKey cfg "private_key" then
          match pyDictGet cfg "private_key" with
          | some (.str pks) => O.rsaDecrypt c.challenge_data pks
          | _ => none
        else none
      else none
  | none => none

/-- The single-layer fallback's verdict (`app/utils.py` lines 315-319):
`decrypted_text is not None and submitted_answer_part.strip() ==
challenge.flag.strip()` — note that the decrypted text's value itself is
not compared. -/
def singleLayerVerify (O : DecOracles) (payload : PyStr) (c : Challenge)
    (cfg : List (String × JVal)) : Bool :=
  (singleLayerDecrypt O c cfg).isSome && decide (pyStrip payload = pyStrip c.flag)

/-- The category dispatch of `verify_challenge_solution` after token
parsing (`app/utils.py` lines 170-328): `Cryptography` challenges load
`config_json` (invalid JSON → `False`), use the layered path when
`layers` is a non-empty JSON list and the single-layer fallback
otherwise; the layered verdict (lines 265-274) is
`final_decrypted_text is not None and submitted_answer_part.strip() ==
challenge.flag.strip()`; every other category compares the payload to the
flag directly (lines 322-328). -/
def verifyAnswer (O : DecOracles) (payload : PyStr) (c : Challenge) : Bool :=
  if c.category = pystr "Cryptography" then
    match c.config with
    | .invalid => false
    | .absent => singleLayerVerify O payload c []
    | .obj fields =>
        match pyDictGet fields "layers" with
        | some (.arr layers) =>
            if layers.isEmpty then singleLayerVerify O payload c fields
            else
              (decryptLayers O c.challenge_data layers).isSome &&
                decide (pyStrip payload = pyStrip c.flag)
        | _ => singleLayerVerify O payload c fields
  else decide (pyStrip payload = pyStrip c.flag)

/-- `verify_challenge_solution` (`app/utils.py` lines 125-334): an empty
submission is rejected, then the flag token is parsed and bound to the
challenge id (lines 137-168), then the category dispatch runs.  (The
`not challenge` guard and the logging context are outside the model: the
callers always pass a challenge row, and logging does not affect the
verdict.) -/
def verify_challenge_solution (O : DecOracles) (submitted : PyStr)
    (c : Challenge) : Bool :=
  if submitted = [] then false
  else
    match parseFlagPayload submitted c.id with
    | none => false
    | some payload => verifyAnswer O payload c

/-- A decryption-oracle instance whose external calls always fail; used in
concrete evaluations whose control flow never reaches an AES/RSA call. -/
def noDecOracles : DecOracles := ⟨fun _ _ _ => none, fun _ _ => none⟩

/-! ### Authoring pipeline (`ltool.py`) -/

/-- A Python value that is either `bytes` or `str`, as threaded through
`run_layered_encryption_script`'s `current_data`. -/
inductive PyData where
  | bytes (l : List Nat)
  | str (s : PyStr)
  deriving Repr

/-- `current_data` coerced to bytes, as `aes_encrypt_layer` (lines 21-22)
and the RSA branch (lines 171-172) do with `.encode('utf-8')`. -/
def pyDataBytes : PyData → List Nat
  | .bytes b => b
  | .str s => utf8Encode s

/-- `current_data` coerced to a string, as lines 192-195 do at the end of
each iteration (base64 outputs are already strings; the `bytes` safety
branch decodes with `errors='ignore'`). -/
def pyDataStr : PyData → PyStr
  | .str s => s
  | .bytes b => utf8DecodeIgnore b

/-- The external encryption layer primitives of `ltool.py`:
`aes_encrypt_layer` (lines 18-40) and `rsa_encrypt_layer` (lines 88-123)
generate fresh random keys and call PyCryptodome; each is modelled as an
abstract function from the input bytes to the base64 output string and
the layer-config object recorded for it (one fixed random draw per
oracle instance).  `rsa_encrypt_layer` can fail (`None, None`). -/
structure EncOracles where
  aesEncryptLayer : List Nat → PyStr × List (String × JVal)
  rsaEncryptLayer : List Nat → Option (PyStr × List (String × JVal))

/-- One layer choice typed by the admin, with the random letters drawn
for a Vigenère layer supplied explicitly. -/
inductive LayerChoice where
  | aes
  | vigenere (draw : PyStr)
  | rsa
  deriving Repr

/-- `layer_type_input.upper()` (`ltool.py` line 183): the tag recorded in
each layer's details. -/
def layerTypeName : LayerChoice → String
  | .aes => "AES"
  | .vigenere _ => "VIGENERE"
  | .rsa => "RSA"

/-- One iteration of the encryption loop (`ltool.py` lines 159-198):
apply the chosen layer to `current_data`, converting representation
first where the script does (base64-decode + UTF-8-decode bytes before a
Vigenère layer; UTF-8-encode strings before AES/RSA).  Returns the output
string and the layer config, or `none` when the layer errors (the
`except` at lines 200-204 / the `output_data is None` check abort the
whole run). -/
def composeStep (E : EncOracles) (cur : PyData) :
    LayerChoice → Option (PyStr × List (String × JVal))
  | .aes => some (E.aesEncryptLayer (pyDataBytes cur))
  | .vigenere draw =>
      let converted : Option PyStr :=
        match cur with
        | .bytes b => (b64decodeBytes? b).map utf8DecodeIgnore
        | .str s => some s
      match converted with
      | none => none
      | some s =>
          let r := vigenere_encrypt_layer s draw
          some (r.1, [("key", .str r.2)])
  | .rsa => E.rsaEncryptLayer (pyDataBytes cur)

/-- The recorded `config_list` entry for one layer (`ltool.py` lines
228-229): `\x7b'layer': n, 'type': TYPE, 'config': \x7b...\x7d\x7d` with the
type tag uppercased. -/
def layerRecord (n : Nat) (ch : LayerChoice) (cfg : List (String × JVal)) : JVal :=
  .obj [("layer", .num n), ("type", .str (pystr (layerTypeName ch))), ("config", .obj cfg)]

/-- The encryption loop of `run_layered_encryption_script`, accumulating
the recorded configs in order. -/
def composeGo (E : EncOracles) : PyData → List LayerChoice → Nat → List JVal →
    Option (PyStr × List JVal)
  | cur, [], _, recs =>
      match recs with
      | [] => none
      | _ => some (pyDataStr cur, recs)
  | cur, ch :: rest, n, recs =>
      match composeStep E cur ch with
      | none => none
      | some (out, cfg) => composeGo E (.str out) rest (n + 1) (recs ++ [layerRecord n ch cfg])

/-- `run_layered_encryption_script` (`ltool.py` lines 127-240), reduced to
its data flow: starting from the plaintext's UTF-8 bytes (line 135),
apply the chosen layers in order; produce the final ciphertext string and
the ordered `config_list` the admin is told to persist.  `none` models
every abort path (no layers, or a failing layer). -/
def run_layered_encryption (E : EncOracles) (S : PyStr)
    (choices : List LayerChoice) : Option (PyStr × List JVal) :=
  composeGo E (.bytes (utf8Encode S)) choices 1 []

/-- An encryption-oracle instance whose external calls always fail; used
in concrete evaluations whose control flow never reaches an AES/RSA
layer. -/
def noEncOracles : EncOracles := ⟨fun _ => ([], []), fun _ => none⟩

/-! ### RSA truncation (`tool.py` / `ltool.py`) -/

/-- `rsa_encrypt` (`tool.py` lines 105-132), with the PKCS1-OAEP
primitive of the imported public key abstracted as `oaepEnc` and the key
size in bytes as a parameter: plaintext longer than
`size_in_bytes - 42` is silently truncated to that capacity (lines
117-123), then encrypted and base64-encoded.  (The `ciphertext_b64`
entry of the returned dict.) -/
def rsa_encrypt (oaepEnc : List Nat → List Nat) (sizeInBytes : Nat)
    (pt : List Nat) : PyStr :=
  let maxSize := sizeInBytes - 42
  let pt := if maxSize < pt.length then pt.take maxSize else pt
  b64encodeBytes (oaepEnc pt)

/-- The `output_data` of `rsa_encrypt_layer` (`ltool.py` lines 88-120):
the same truncation (lines 103-107) and base64 framing as `rsa_encrypt`
(the generated key-pair config is produced by the library and not
modelled). -/
def rsa_encrypt_layer_data (oaepEnc : List Nat → List Nat) (sizeInBytes : Nat)
    (pt : List Nat) : PyStr :=
  let maxSize := sizeInBytes - 42
  let pt := if maxSize < pt.length then pt.take maxSize else pt
  b64encodeBytes (oaepEnc pt)

/-- `rsa_decrypt` (`app/utils.py` lines 76-94) with the OAEP decryption
of the imported private key abstracted as `oaepDec`: base64-decode the
ciphertext, decrypt, UTF-8-decode strictly; any failure is `None`. -/
def rsa_decrypt (oaepDec : List Nat → Option (List Nat)) (ctB64 : PyStr) :
    Option PyStr :=
  match b64decodeBytes? ctB64 with
  | none => none
  | some ctb =>
      match oaepDec ctb with
      | none => none
      | some ptb => utf8DecodeStrict? ptb

/-! ### The spec's encoding-transition rule, for comparison (claim C4) -/

/-- Representation class of an algorithm per the spec: block-cipher and
public-key layers consume/produce a radix-64 text encoding of bytes,
polyalphabetic layers consume/produce raw text. -/
inductive ReprClass where
  | encoded
  | raw
  deriving Repr, DecidableEq

/-- Representation class of a layer entry, read off its `type` tag. -/
def layerClass? (l : JVal) : Option ReprClass :=
  match l with
  | .obj fields =>
      match pyDictGet fields "type" with
      | some (.str t) =>
          if t = pystr "aes" ∨ t = pystr "rsa" then some .encoded
          else if t = pystr "vigenere" then some .raw
          else none
      | _ => none
  | _ => none

/-- The spec's conversion between representation classes: decode-to-raw-
text when moving from an encoded algorithm to polyalphabetic, re-encode
in the opposite direction, nothing between layers of the same class.
Modelled from the spec's words (spec §4.4); this is the comparison
definition for the refinement claim C4 and deliberately not taken from
the source, which contains no such conversion. -/
def convertRepr (src dst : ReprClass) (s : PyStr) : Option PyStr :=
  match src, dst with
  | .encoded, .raw => (b64decodeBytes? s).map utf8DecodeIgnore
  | .raw, .encoded => some (b64encodeBytes (utf8Encode s))
  | _, _ => some s

/-- The layered inversion loop as the spec's encoding-transition rule
describes it: exactly one conversion between adjacent layers of differing
representation class, none otherwise.  Modelled from the spec (§4.4), for
comparison with `decryptLayers`. -/
def decryptLayersConvGo (O : DecOracles) (prev : ReprClass) (blob : PyStr) :
    List JVal → Option PyStr
  | [] => some blob
  | l :: rest =>
      match layerClass? l with
      | none => none
      | some cls =>
          match convertRepr prev cls blob with
          | none => none
          | some blob' =>
              match decryptLayer1 O blob' l with
              | some r => decryptLayersConvGo O cls r rest
              | none => none

/-- Entry point of the spec-mandated pipeline: the stored blob is already
in the first layer's representation, so no conversion precedes layer 1. -/
def decryptLayersConv (O : DecOracles) (blob : PyStr) (ls : List JVal) :
    Option PyStr :=
  match ls with
  | [] => some blob
  | l :: _ =>
      match layerClass? l with
      | none => none
      | some cls => decryptLayersConvGo O cls blob ls

/-! ### Claim C1 -/

/-- A single-layer Vigenère challenge whose stored data decrypts to
`hello` while its stored flag is `bye`. -/
def chalSingleVig : Challenge :=
  { id := 1
    category := pystr "Cryptography"
    challenge_data := pystr "ifmmp"
    encryption_type := some (pystr "vigenere")
    config := .obj [("key", .str (pystr "B"))]
    flag := pystr "bye" }

/-- The same mismatch as a layered challenge: one `vigenere` layer. -/
def chalLayeredVig : Challenge :=
  { id := 1
    category := pystr "Cryptography"
    challenge_data := pystr "ifmmp"
    encryption_type := none
    config := .obj [("layers",
      .arr [.obj [("type", .str (pystr "vigenere")), ("key", .str (pystr "B"))]])]
    flag := pystr "bye" }

/-- C1: the claim says both verification paths return true only if the
trimmed final decrypted text equals the trimmed stored expected answer.
The code (`app/utils.py` lines 269 and 317) checks only that decryption
returned *something* (`is not None`) and that the submitted payload
equals the stored flag — the decrypted text's value is never compared,
contradicting the source's own comments (`# Compare the final decrypted
text to the stored flag`) and log messages.  Concretely: both challenges
above decrypt to `hello`, their stored flag is `bye`, and submitting
`Flag\x7b1_bye\x7d` verifies as true on both paths even though the
decrypted text differs from the expected answer. -/
theorem C1_decrypted_text_never_compared :
    verify_challenge_solution noDecOracles (pystr "Flag\x7b1_bye\x7d") chalSingleVig = true ∧
    vigenere_decrypt (pystr "ifmmp") (pystr "B") = some (pystr "hello") ∧
    verify_challenge_solution noDecOracles (pystr "Flag\x7b1_bye\x7d") chalLayeredVig = true ∧
    decryptLayers noDecOracles (pystr "ifmmp")
      [.obj [("type", .str (pystr "vigenere")), ("key", .str (pystr "B"))]]
      = some (pystr "hello") ∧
    pyStrip (pystr "hello") ≠ pyStrip (pystr "bye") := by
  refine ⟨by decide, by decide, by decide, ?_, by decide⟩
  decide

/-! ### Claim C2 -/

/-- C2: the claim says composing a secret through layers with the
authoring pipeline and then running the verification pipeline's inversion
loop over the recorded layer list in its stored order reproduces the
secret.  The authoring script records each layer with its type tag
uppercased (`VIGENERE`) and its parameters nested under a `config` key
(`ltool.py` lines 183, 228), while the inversion loop recognizes only the
lowercase tags `aes`/`vigenere`/`rsa` with parameters at top level
(`app/utils.py` lines 196-255) — so the loop fails at the very first
recorded layer and reproduces nothing (and for the first layer the script
additionally base64-decodes the raw secret bytes, line 167).  Concretely:
composing `aWJz` through two Vigenère layers (drawn keys `B`, `C`)
succeeds and produces blob `lev` with two recorded layers, but the
inversion loop over that record returns failure, not the secret. -/
theorem C2_authoring_records_never_invert :
    (run_layered_encryption noEncOracles (pystr "aWJz")
        [.vigenere (pystr "B"), .vigenere (pystr "C")]).map Prod.fst
      = some (pystr "lev") ∧
    (run_layered_encryption noEncOracles (pystr "aWJz")
        [.vigenere (pystr "B"), .vigenere (pystr "C")]).bind
        (fun r => decryptLayers noDecOracles r.1 r.2)
      = none ∧
    (none : Option PyStr) ≠ some (pystr "aWJz") := by
  refine ⟨by decide, ?_, by decide⟩
  decide

/-! ### Token protocol lemmas (claims C3, C9) -/

theorem flagPre_eq : flagPre = [70, 108, 97, 103, 123] := by decide

/-- Stripping leaves a list alone when its first and last characters are
not whitespace. -/
theorem pyStrip_of_ends (a b : Nat) (mid : List Nat)
    (ha : pyIsSpace a = false) (hb : pyIsSpace b = false) :
    pyStrip (a :: (mid ++ [b])) = a :: (mid ++ [b]) := by
  unfold pyStrip
  rw [List.dropWhile_cons, ha]
  simp only [Bool.false_eq_true, if_false]
  have h1 : (a :: (mid ++ [b])).reverse = b :: (mid.reverse ++ [a]) := by
    simp
  rw [h1, List.dropWhile_cons, hb]
  simp

/-- A constructed token is insensitive to stripping. -/
theorem pyStrip_mkFlagToken (i p : PyStr) :
    pyStrip (mkFlagToken i p) = mkFlagToken i p := by
  have h : mkFlagToken i p = 70 :: (([108, 97, 103, 123] ++ i ++ (95 :: p)) ++ [125]) := by
    rw [mkFlagToken, flagPre_eq]
    simp
  rw [h]
  exact pyStrip_of_ends 70 125 _ (by decide) (by decide)

/-- Splitting at the first separator recovers the construction. -/
theorem pySplitFirst_construct (sep : Nat) (i p : PyStr) (h : sep ∉ i) :
    pySplitFirst sep (i ++ sep :: p) = some (i, p) := by
  induction i with
  | nil => simp [pySplitFirst]
  | cons c rest ih =>
      have hc : c ≠ sep := fun hc => h (hc ▸ List.mem_cons_self c rest)
      have hrest : sep ∉ rest := fun hr => h (List.mem_cons_of_mem c hr)
      simp only [List.cons_append, pySplitFirst, if_neg hc, List.append_eq, ih hrest]
      rfl

/-- Inversion of a successful first-separator split. -/
theorem pySplitFirst_eq_some (sep : Nat) :
    ∀ (l a b : PyStr), pySplitFirst sep l = some (a, b) →
      l = a ++ sep :: b ∧ sep ∉ a := by
  intro l
  induction l with
  | nil => intro a b h; exact absurd h (by simp [pySplitFirst])
  | cons c rest ih =>
      intro a b h
      simp only [pySplitFirst] at h
      by_cases hc : c = sep
      · rw [if_pos hc, Option.some_inj, Prod.mk.injEq] at h
        obtain ⟨ha, hb⟩ := h
        subst hc; subst hb
        rw [← ha]
        exact ⟨rfl, by simp⟩
      · rw [if_neg hc] at h
        match hsplit : pySplitFirst sep rest with
        | none => rw [hsplit] at h; exact absurd h (by simp)
        | some (a', b') =>
            rw [hsplit] at h
            rw [show Option.map (fun p : PyStr × PyStr => (c :: p.1, p.2)) (some (a', b'))
                  = some (c :: a', b') from rfl, Option.some_inj, Prod.mk.injEq] at h
            obtain ⟨ha, hb⟩ := h
            obtain ⟨hrest, hmem⟩ := ih a' b' hsplit
            subst hb
            constructor
            · rw [← ha, hrest]; simp
            · rw [← ha]
              intro hm
              rcases List.mem_cons.mp hm with h1 | h2
              · exact hc h1.symm
              · exact hmem h2

/-- Parsing a constructed token: the envelope and split always succeed,
so acceptance is exactly integer parsing of the id part plus the identity
check. -/
theorem parseFlagPayload_mkFlagToken (i p : PyStr) (cid : Int) (h : 95 ∉ i) :
    parseFlagPayload (mkFlagToken i p) cid =
      match pyInt? i with
      | none => none
      | some n => if n = cid then some p else none := by
  unfold parseFlagPayload
  rw [pyStrip_mkFlagToken]
  have hsplit : mkFlagToken i p = flagPre ++ ((i ++ 95 :: p) ++ [125]) := by
    rw [mkFlagToken]; simp
  have hpre : flagPre.isPrefixOf (mkFlagToken i p) = true := by
    rw [hsplit, List.isPrefixOf_iff_prefix]
    exact List.prefix_append flagPre _
  have hlast : (mkFlagToken i p).getLast? = some 125 := by
    rw [hsplit, List.getLast?_append_of_ne_nil flagPre (by simp), List.getLast?_concat]
  rw [if_pos ⟨hpre, hlast⟩]
  have hdrop : (mkFlagToken i p).drop 5 = (i ++ 95 :: p) ++ [125] := by
    rw [hsplit, show (5 : Nat) = flagPre.length from rfl, List.drop_left]
  rw [hdrop, List.dropLast_concat, pySplitFirst_construct 95 i p h]

/-! ### Claim C3 -/

/-- C3: the token protocol accepts exactly strings whose stripped form is
`Flag\x7b<id>_<payload>\x7d` with the pre-underscore part an integer equal to
the challenge id: (1) soundness — any accepted token has that shape, the
split happening at the first underscore (so the payload keeps its own
underscores); (2-4) the claim's concrete instances, including acceptance
of `Flag\x7b7_hello\x7d` for id 7, rejection for id 8, and the payload
`answer_with_underscores` surviving intact; (5) a failed parse makes the
overall verification return false. -/
theorem C3_token_grammar :
    (∀ (s : PyStr) (cid : Int) (p : PyStr), parseFlagPayload s cid = some p →
        ∃ idStr, pyStrip s = flagPre ++ (idStr ++ 95 :: (p ++ [125])) ∧
          95 ∉ idStr ∧ pyInt? idStr = some cid) ∧
    parseFlagPayload (pystr "Flag\x7b7_hello\x7d") 7 = some (pystr "hello") ∧
    parseFlagPayload (pystr "Flag\x7b7_hello\x7d") 8 = none ∧
    parseFlagPayload (pystr "Flag\x7b7_answer_with_underscores\x7d") 7
      = some (pystr "answer_with_underscores") ∧
    (∀ (O : DecOracles) (s : PyStr) (c : Challenge),
        parseFlagPayload s c.id = none → verify_challenge_solution O s c = false) := by
  refine ⟨?_, by decide, by decide, by decide, ?_⟩
  · intro s cid p h
    unfold parseFlagPayload at h
    by_cases hcond : flagPre.isPrefixOf (pyStrip s) = true ∧ (pyStrip s).getLast? = some 125
    · rw [if_pos hcond] at h
      obtain ⟨hpre, hlast⟩ := hcond
      obtain ⟨r, hr⟩ := List.isPrefixOf_iff_prefix.mp hpre
      match hsplit : pySplitFirst 95 (((pyStrip s).drop 5).dropLast) with
      | none => rw [hsplit] at h; exact absurd h (by simp)
      | some (idStr, ans) =>
          rw [hsplit] at h
          change (match pyInt? idStr with
            | none => none
            | some n => if n = cid then some ans else none) = some p at h
          match hint : pyInt? idStr with
          | none => rw [hint] at h; exact absurd h (by simp)
          | some n =>
              rw [hint] at h
              change (if n = cid then some ans else none) = some p at h
              by_cases hn : n = cid
              · subst hn
                rw [if_pos rfl, Option.some_inj] at h
                refine ⟨idStr, ?_, (pySplitFirst_eq_some 95 _ _ _ hsplit).2, hint⟩
                have hrne : r ≠ [] := by
                  intro hr0
                  rw [hr0, List.append_nil] at hr
                  rw [← hr] at hlast
                  exact absurd hlast (by decide)
                have hrlast : r.getLast? = some 125 := by
                  rw [← hr, List.getLast?_append_of_ne_nil flagPre hrne] at hlast
                  exact hlast
                have hrdec : r.dropLast ++ [125] = r :=
                  List.dropLast_append_getLast? 125 hrlast
                have hdrop : (pyStrip s).drop 5 = r := by
                  rw [← hr, show (5 : Nat) = flagPre.length from rfl, List.drop_left]
                have hcontent : r.dropLast = idStr ++ 95 :: ans := by
                  have hq := (pySplitFirst_eq_some 95 _ _ _ hsplit).1
                  rw [hdrop] at hq
                  exact hq
                rw [← hr, ← hrdec, hcontent, h]
                simp
              · rw [if_neg hn] at h; exact absurd h (by simp)
    · rw [if_neg hcond] at h; exact absurd h (by simp)
  · intro O s c hparse
    unfold verify_challenge_solution
    by_cases hs : s = []
    · rw [if_pos hs]
    · rw [if_neg hs, hparse]

/-- Witness for C3: the soundness clause instantiated at the accepted
token `Flag\x7b9_z\x7d` against id 9, and the parse-failure clause at a
malformed submission. -/
theorem C3_token_grammar_witness :
    (∃ idStr, pyStrip (pystr "Flag\x7b9_z\x7d")
        = flagPre ++ (idStr ++ 95 :: (pystr "z" ++ [125])) ∧
        95 ∉ idStr ∧ pyInt? idStr = some 9) ∧
    verify_challenge_solution noDecOracles (pystr "oops") chalSingleVig = false :=
  ⟨C3_token_grammar.1 (pystr "Flag\x7b9_z\x7d") 9 (pystr "z") (by decide),
   C3_token_grammar.2.2.2.2 noDecOracles (pystr "oops") chalSingleVig (by decide)⟩

/-! ### Claim C9 -/

/-- C9: the token's challenge-id field is matched by numeric value via
Python `int` parsing — for any id string without an underscore, the
constructed token is accepted against exactly the ids `int` parses it to
(so `+007`, ` 7` etc. pass against id 7), and an unparsable id part makes
verification return false rather than raise (the model is total; the
source catches the `ValueError` and returns `False`). -/
theorem C9_numeric_id_match (idStr payload : PyStr) (cid : Int) (h : 95 ∉ idStr) :
    (parseFlagPayload (mkFlagToken idStr payload) cid =
      match pyInt? idStr with
      | none => none
      | some n => if n = cid then some payload else none) ∧
    parseFlagPayload (pystr "Flag\x7b+007_x\x7d") 7 = some (pystr "x") ∧
    parseFlagPayload (pystr "Flag\x7b 7_x\x7d") 7 = some (pystr "x") ∧
    parseFlagPayload (pystr "Flag\x7b0x7_x\x7d") 7 = none ∧
    (∀ (O : DecOracles) (c : Challenge), pyInt? idStr = none →
        verify_challenge_solution O (mkFlagToken idStr payload) c = false) := by
  refine ⟨parseFlagPayload_mkFlagToken idStr payload cid h, by decide, by decide, by decide, ?_⟩
  intro O c hint
  unfold verify_challenge_solution
  have hne : mkFlagToken idStr payload ≠ [] := by
    rw [mkFlagToken, flagPre_eq]; simp
  rw [if_neg hne, parseFlagPayload_mkFlagToken idStr payload c.id h, hint]

/-- Witness for C9: `+007` binds to id 7, and garbage id parts yield a
false verdict. -/
theorem C9_numeric_id_match_witness :
    parseFlagPayload (mkFlagToken (pystr "+007") (pystr "x")) 7 = some (pystr "x") ∧
    verify_challenge_solution noDecOracles (mkFlagToken (pystr "abc") (pystr "x"))
      chalSingleVig = false :=
  ⟨((C9_numeric_id_match (pystr "+007") (pystr "x") 7 (by decide)).1).trans (by decide),
   (C9_numeric_id_match (pystr "abc") (pystr "x") 7 (by decide)).2.2.2.2
     noDecOracles chalSingleVig (by decide)⟩

/-! ### Claim C5 -/

/-- The layered loop processes an appended list as sequential
composition. -/
theorem decryptLayers_append (O : DecOracles) (blob : PyStr) (l1 l2 : List JVal) :
    decryptLayers O blob (l1 ++ l2) =
      match decryptLayers O blob l1 with
      | some b => decryptLayers O b l2
      | none => none := by
  induction l1 generalizing blob with
  | nil => rfl
  | cons l rest ih =>
      cases hd : decryptLayer1 O blob l with
      | none => simp [decryptLayers, hd]
      | some r => simp [decryptLayers, hd, ih r]

/-- C5: the layered pipeline short-circuits — when the layers before
`bad` succeed and `bad` itself fails (its inverse fails, its tag is
unrecognized, or a required parameter such as a block-cipher `iv` is
missing, all of which make `decryptLayer1` return `none`), the loop
result is failure for *every* suffix `post` (so no later layer's inverse
affects anything), and the overall verification of any Cryptography
challenge carrying that layer list returns false for every submission. -/
theorem C5_layer_short_circuit (O : DecOracles) (pre post : List JVal) (bad : JVal)
    (blob b : PyStr) (hpre : decryptLayers O blob pre = some b)
    (hbad : decryptLayer1 O b bad = none) :
    decryptLayers O blob (pre ++ bad :: post) = none ∧
    (∀ (c : Challenge) (s : PyStr) (fields : List (String × JVal)),
        c.category = pystr "Cryptography" →
        c.config = ConfigJson.obj fields →
        pyDictGet fields "layers" = some (.arr (pre ++ bad :: post)) →
        c.challenge_data = blob →
        verify_challenge_solution O s c = false) := by
  have hmain : decryptLayers O blob (pre ++ bad :: post) = none := by
    rw [decryptLayers_append, hpre]
    simp [decryptLayers, hbad]
  refine ⟨hmain, ?_⟩
  intro c s fields hcat hcfg hlayers hdata
  by_cases hs : s = []
  · simp [verify_challenge_solution, hs]
  · cases hp : parseFlagPayload s c.id with
    | none => simp [verify_challenge_solution, if_neg hs, hp]
    | some payload =>
        have hne : (pre ++ bad :: post).isEmpty = false := by
          cases pre <;> rfl
        simp only [verify_challenge_solution, if_neg hs, hp]
        simp only [verifyAnswer, if_pos hcat, hcfg, hlayers, hne]
        rw [hdata, hmain]
        simp

/-- A block-cipher layer with no `iv` parameter. -/
def aesLayerNoIv : JVal := .obj [("type", .str (pystr "aes")), ("key", .str (pystr "a2V5"))]

/-- A well-formed Vigenère layer. -/
def vigLayerB : JVal := .obj [("type", .str (pystr "vigenere")), ("key", .str (pystr "B"))]

/-- A layered challenge whose first layer is the `iv`-less AES layer. -/
def chalBadAes : Challenge :=
  { id := 1
    category := pystr "Cryptography"
    challenge_data := pystr "x"
    encryption_type := none
    config := .obj [("layers", .arr [aesLayerNoIv, vigLayerB])]
    flag := pystr "x" }

/-- Witness for C5: an AES layer missing `iv` halts the pipeline at once
(the trailing Vigenère layer is irrelevant) and the verdict is false. -/
theorem C5_layer_short_circuit_witness :
    decryptLayers noDecOracles (pystr "x") ([] ++ aesLayerNoIv :: [vigLayerB]) = none ∧
    verify_challenge_solution noDecOracles (pystr "Flag\x7b1_x\x7d") chalBadAes = false := by
  have h := C5_layer_short_circuit noDecOracles [] [vigLayerB] aesLayerNoIv
    (pystr "x") (pystr "x") (by decide) (by decide)
  exact ⟨h.1, h.2 chalBadAes (pystr "Flag\x7b1_x\x7d") _ rfl rfl rfl rfl⟩

/-! ### Claim C7 -/

/-- C7 amended: the dispatch to the literal-comparison path is by the
category field, not by the absence of crypto configuration — for every
challenge whose category is not `Cryptography` (whatever its
`encryption_type` and `config_json` hold), a parsed submission verifies
exactly when the trimmed payload equals the trimmed stored flag. -/
theorem C7_noncrypto_by_category (O : DecOracles) (c : Challenge) (s payload : PyStr)
    (hcat : c.category ≠ pystr "Cryptography")
    (hparse : parseFlagPayload s c.id = some payload) :
    verify_challenge_solution O s c = decide (pyStrip payload = pyStrip c.flag) := by
  have hs : s ≠ [] := by
    intro h0
    rw [h0, show parseFlagPayload [] c.id = none from rfl] at hparse
    exact absurd hparse (by simp)
  simp only [verify_challenge_solution, if_neg hs, hparse]
  simp only [verifyAnswer, if_neg hcat]

/-- A non-crypto challenge as in the claim's example. -/
def chalWeb : Challenge :=
  { id := 3
    category := pystr "Web"
    challenge_data := []
    encryption_type := none
    config := .absent
    flag := pystr "capture_the_flag" }

/-- Witness for C7: `Flag\x7b3_capture_the_flag\x7d` verifies as true against
the non-crypto challenge with that expected answer and id 3. -/
theorem C7_noncrypto_by_category_witness :
    verify_challenge_solution noDecOracles (pystr "Flag\x7b3_capture_the_flag\x7d")
      chalWeb = true := by
  rw [C7_noncrypto_by_category noDecOracles chalWeb
    (pystr "Flag\x7b3_capture_the_flag\x7d") (pystr "capture_the_flag")
    (by decide) (by decide)]
  decide

/-- A challenge with *no* crypto configuration but category
`Cryptography`. -/
def chalCryptoUnset : Challenge :=
  { id := 1
    category := pystr "Cryptography"
    challenge_data := []
    encryption_type := none
    config := .absent
    flag := pystr "x" }

/-- C7 counterexample: the claim says a challenge with neither a single
algorithm nor layers is compared literally *regardless of the category
field*; but with category `Cryptography` the code takes the crypto branch,
finds no usable configuration, and returns false even though the
submitted payload equals the stored expected answer. -/
theorem C7_category_counterexample :
    verify_challenge_solution noDecOracles (pystr "Flag\x7b1_x\x7d") chalCryptoUnset = false ∧
    pyStrip (pystr "x") = pyStrip chalCryptoUnset.flag := by
  exact ⟨by decide, by decide⟩

/-! ### Claim C4 -/

/-- Helper: a non-empty list has `isEmpty = false`. -/
theorem isEmpty_false_of_ne_nil {l : List Nat} (h : l ≠ []) : l.isEmpty = false := by
  cases l with
  | nil => exact absurd rfl h
  | cons a t => rfl

/-- One AES layer step of the verification loop feeds the oracle the blob
verbatim and returns its result verbatim. -/
theorem decryptLayer1_aes (O : DecOracles) (blob kb ivb : PyStr)
    (hblob : blob ≠ []) (hkb : kb ≠ []) (hivb : ivb ≠ []) :
    decryptLayer1 O blob
      (.obj [("type", .str (pystr "aes")), ("key", .str kb), ("iv", .str ivb)])
      = O.aesDecrypt blob kb ivb := by
  simp [decryptLayer1,
    show pyDictGet [("type", JVal.str (pystr "aes")), ("key", JVal.str kb),
      ("iv", JVal.str ivb)] "type" = some (JVal.str (pystr "aes")) from rfl,
    show layerParams [("type", JVal.str (pystr "aes")), ("key", JVal.str kb),
      ("iv", JVal.str ivb)] = [("key", JVal.str kb), ("iv", JVal.str ivb)] from rfl,
    show pyDictGet [("key", JVal.str kb), ("iv", JVal.str ivb)] "key"
      = some (JVal.str kb) from rfl,
    show pyDictGet [("key", JVal.str kb), ("iv", JVal.str ivb)] "iv"
      = some (JVal.str ivb) from rfl,
    optTruthy, jTruthy, isEmpty_false_of_ne_nil hkb, isEmpty_false_of_ne_nil hivb,
    hblob]

/-- One Vigenère layer step of the verification loop runs
`vigenere_decrypt` on the blob verbatim. -/
theorem decryptLayer1_vig (O : DecOracles) (blob vk : PyStr)
    (hblob : blob ≠ []) (hvk : vk ≠ []) :
    decryptLayer1 O blob
      (.obj [("type", .str (pystr "vigenere")), ("key", .str vk)])
      = vigenere_decrypt blob vk := by
  simp [decryptLayer1,
    show pyDictGet [("type", JVal.str (pystr "vigenere")), ("key", JVal.str vk)] "type"
      = some (JVal.str (pystr "vigenere")) from rfl,
    show layerParams [("type", JVal.str (pystr "vigenere")), ("key", JVal.str vk)]
      = [("key", JVal.str vk)] from rfl,
    show pyDictGet [("key", JVal.str vk)] "key" = some (JVal.str vk) from rfl,
    show ¬(pystr "vigenere" = pystr "aes") from by decide,
    optTruthy, jTruthy, isEmpty_false_of_ne_nil hvk, hblob]

/-- C4 amended: the verification pipeline performs *no* encoding
conversion between adjacent layers, even when their representation
classes differ — the raw output of one layer's inverse is fed to the
next inverse unchanged, in both directions (AES-then-Vigenère and
Vigenère-then-AES adjacencies).  (The authoring tool does convert; the
verification loop, `app/utils.py` lines 195-263, does not.) -/
theorem C4_verification_inserts_no_conversion (O : DecOracles)
    (blob t kb ivb vk : PyStr)
    (hblob : blob ≠ []) (hkb : kb ≠ []) (hivb : ivb ≠ []) (hvk : vk ≠ [])
    (ht : t ≠ []) (haes : O.aesDecrypt blob kb ivb = some t) :
    decryptLayers O blob
      [.obj [("type", .str (pystr "aes")), ("key", .str kb), ("iv", .str ivb)],
       .obj [("type", .str (pystr "vigenere")), ("key", .str vk)]]
      = vigenere_decrypt t vk ∧
    (∀ u, vigenere_decrypt blob vk = some u → u ≠ [] →
        decryptLayers O blob
          [.obj [("type", .str (pystr "vigenere")), ("key", .str vk)],
           .obj [("type", .str (pystr "aes")), ("key", .str kb), ("iv", .str ivb)]]
          = O.aesDecrypt u kb ivb) := by
  constructor
  · simp only [decryptLayers, decryptLayer1_aes O blob kb ivb hblob hkb hivb, haes,
      decryptLayer1_vig O t vk ht hvk]
    cases hv : vigenere_decrypt t vk <;> simp
  · intro u hu hune
    simp only [decryptLayers, decryptLayer1_vig O blob vk hblob hvk, hu,
      decryptLayer1_aes O u kb ivb hune hkb hivb]
    cases ha : O.aesDecrypt u kb ivb <;> simp

/-- Witness for C4's amended statement, with a concrete oracle whose AES
inverse returns `aGk=`. -/
theorem C4_verification_inserts_no_conversion_witness :
    decryptLayers ⟨fun _ _ _ => some (pystr "aGk="), fun _ _ => none⟩ (pystr "x")
      [.obj [("type", .str (pystr "aes")), ("key", .str (pystr "a2V5")),
          ("iv", .str (pystr "aXY="))],
       .obj [("type", .str (pystr "vigenere")), ("key", .str (pystr "B"))]]
      = vigenere_decrypt (pystr "aGk=") (pystr "B") :=
  (C4_verification_inserts_no_conversion
    ⟨fun _ _ _ => some (pystr "aGk="), fun _ _ => none⟩
    (pystr "x") (pystr "aGk=") (pystr "a2V5") (pystr "aXY=") (pystr "B")
    (by decide) (by decide) (by decide) (by decide) (by decide) rfl).1

/-! ### Claim C10 -/

/-- `str.upper` of a single character is never empty. -/
theorem pyUpperChar_ne_nil (c : Nat) : pyUpperChar c ≠ [] := by
  unfold pyUpperChar
  split_ifs <;> simp

/-- The normalized key is empty exactly when the key has no letters. -/
theorem vigNormKey_eq_nil_iff (k : PyStr) :
    vigNormKey k = [] ↔ ∀ c ∈ k, pyIsAlpha c = false := by
  unfold vigNormKey pyUpper
  rw [List.flatMap_eq_nil_iff]
  constructor
  · intro h c hc
    by_contra hne
    have hmem : c ∈ k.filter pyIsAlpha :=
      List.mem_filter.mpr ⟨hc, by simpa using hne⟩
    exact pyUpperChar_ne_nil c (h c hmem)
  · intro h c hc
    rw [List.mem_filter] at hc
    rw [h c hc.1] at hc
    exact absurd hc.2 (by simp)

/-- C10 amended: the Vigenère operations depend on the key only through
its normalization (letters kept, uppercased) — keys with equal
normalizations give identical ciphertexts and identical decryptions (the
claim's example `"L-e m0n"`, however, normalizes to `LEMN`, not `LEMON`,
so it is *not* equivalent to `"LEMON"`; a correct example is
`"l_e-m+o n"`); and the operations degrade exactly on letterless keys:
encryption then substitutes `DEFAULTKEY` while decryption returns
failure, and with at least one letter decryption always succeeds using
the normalized key. -/
theorem C10_key_normalization_invariance (x k1 k2 k : PyStr)
    (hnorm : vigNormKey k1 = vigNormKey k2) :
    vigenere_encrypt x k1 = vigenere_encrypt x k2 ∧
    vigenere_decrypt x k1 = vigenere_decrypt x k2 ∧
    (vigNormKey k = [] ↔ ∀ c ∈ k, pyIsAlpha c = false) ∧
    (vigNormKey k = [] →
        (vigenere_encrypt x k).key = pystr "DEFAULTKEY" ∧ vigenere_decrypt x k = none) ∧
    (vigNormKey k ≠ [] →
        (vigenere_encrypt x k).key = vigNormKey k ∧
        (vigenere_decrypt x k).isSome = true) := by
  refine ⟨?_, ?_, vigNormKey_eq_nil_iff k, ?_, ?_⟩
  · unfold vigenere_encrypt; rw [hnorm]
  · unfold vigenere_decrypt; rw [hnorm]
  · intro h; exact ⟨by simp [vigenere_encrypt, h], by simp [vigenere_decrypt, h]⟩
  · intro h; exact ⟨by simp [vigenere_encrypt, h], by simp [vigenere_decrypt, h]⟩

/-- Witness for C10 at the claim's (corrected) instances: `LEMON` and
`lemon` are interchangeable, and the letterless key `123` degrades as
stated. -/
theorem C10_key_normalization_invariance_witness :
    vigenere_encrypt (pystr "aaaaa") (pystr "LEMON")
      = vigenere_encrypt (pystr "aaaaa") (pystr "lemon") ∧
    vigenere_decrypt (pystr "aaaaa") (pystr "LEMON")
      = vigenere_decrypt (pystr "aaaaa") (pystr "lemon") ∧
    (vigNormKey (pystr "123") = [] ↔ ∀ c ∈ pystr "123", pyIsAlpha c = false) ∧
    (vigNormKey (pystr "123") = [] →
        (vigenere_encrypt (pystr "aaaaa") (pystr "123")).key = pystr "DEFAULTKEY" ∧
        vigenere_decrypt (pystr "aaaaa") (pystr "123") = none) ∧
    (vigNormKey (pystr "123") ≠ [] →
        (vigenere_encrypt (pystr "aaaaa") (pystr "123")).key = vigNormKey (pystr "123") ∧
        (vigenere_decrypt (pystr "aaaaa") (pystr "123")).isSome = true) :=
  C10_key_normalization_invariance (pystr "aaaaa") (pystr "LEMON") (pystr "lemon")
    (pystr "123") (by decide)

/-- C10 counterexample: the claim presents `"L-e m0n"` as normalizing
equal to `"LEMON"`; in fact it normalizes to `LEMN` (the digit `0` is
dropped, not read as `O`), and the two keys encrypt `aaaaa` differently
(`lemnl` vs `lemon`). -/
theorem C10_example_key_not_equivalent :
    vigNormKey (pystr "L-e m0n") ≠ vigNormKey (pystr "LEMON") ∧
    vigNormKey (pystr "L-e m0n") = pystr "LEMN" ∧
    (vigenere_encrypt (pystr "aaaaa") (pystr "L-e m0n")).ciphertext
      ≠ (vigenere_encrypt (pystr "aaaaa") (pystr "LEMON")).ciphertext := by
  refine ⟨by decide, by decide, by decide⟩

/-! ### Claim C6 -/

/-- Round trip of the per-character loops: decrypting an encryption at
the same key index restores the string, provided every character is
Latin-1 and every alphabetic one is a cased ASCII letter (the model's
`pyIsAlpha` is exact on Latin-1). -/
theorem vigLoop_roundtrip (key : PyStr) :
    ∀ (x : PyStr) (ki : Nat),
      (∀ c ∈ x, c < 256 ∧ (pyIsAlpha c = true → (65 ≤ c ∧ c ≤ 90) ∨ (97 ≤ c ∧ c ≤ 122))) →
      vigDecLoop key ki (vigEncLoop key ki x) = x := by
  intro x
  induction x with
  | nil => intro ki _; rfl
  | cons c rest ih =>
      intro ki h
      have hc := h c (List.mem_cons_self c rest)
      have hrest : ∀ d ∈ rest, d < 256 ∧
          (pyIsAlpha d = true → (65 ≤ d ∧ d ≤ 90) ∨ (97 ≤ d ∧ d ≤ 122)) :=
        fun d hd => h d (List.mem_cons_of_mem c hd)
      by_cases ha : pyIsAlpha c = true
      · rcases hc.2 ha with ⟨hl, hr⟩ | ⟨hl, hr⟩
        · -- uppercase ASCII letter
          have hu : pyIsUpper c = true := by
            simp only [pyIsUpper, Bool.or_eq_true, Bool.and_eq_true, decide_eq_true_eq]
            omega
          simp only [vigEncLoop, if_pos ha, if_pos hu]
          have h0 : (0 : Int) ≤ ((c : Int) - 65 +
              (((key.getD (ki % key.length) 65 : Nat) : Int) - 65)) % 26 :=
            Int.emod_nonneg _ (by norm_num)
          have h1 : ((c : Int) - 65 +
              (((key.getD (ki % key.length) 65 : Nat) : Int) - 65)) % 26 < 26 :=
            Int.emod_lt_of_pos _ (by norm_num)
          have heb : 65 ≤ (((c : Int) - 65 +
              (((key.getD (ki % key.length) 65 : Nat) : Int) - 65)) % 26 + 65).toNat ∧
              (((c : Int) - 65 +
              (((key.getD (ki % key.length) 65 : Nat) : Int) - 65)) % 26 + 65).toNat ≤ 90 := by
            omega
          have hea : pyIsAlpha (((c : Int) - 65 +
              (((key.getD (ki % key.length) 65 : Nat) : Int) - 65)) % 26 + 65).toNat = true := by
            simp only [pyIsAlpha, Bool.or_eq_true, Bool.and_eq_true, decide_eq_true_eq]
            omega
          have heu : pyIsUpper (((c : Int) - 65 +
              (((key.getD (ki % key.length) 65 : Nat) : Int) - 65)) % 26 + 65).toNat = true := by
            simp only [pyIsUpper, Bool.or_eq_true, Bool.and_eq_true, decide_eq_true_eq]
            omega
          simp only [vigDecLoop, if_pos hea, if_pos heu]
          refine congrArg₂ List.cons ?_ (ih (ki + 1) hrest)
          omega
        · -- lowercase ASCII letter
          have hu : pyIsUpper c = false := by
            simp only [pyIsUpper, Bool.or_eq_true, Bool.and_eq_true, decide_eq_true_eq]
            simp only [Bool.eq_false_iff, ne_eq, Bool.or_eq_true, Bool.and_eq_true,
              decide_eq_true_eq]
            omega
          simp only [vigEncLoop, if_pos ha, hu, Bool.false_eq_true, if_false]
          have h0 : (0 : Int) ≤ ((c : Int) - 97 +
              (((key.getD (ki % key.length) 65 : Nat) : Int) - 65)) % 26 :=
            Int.emod_nonneg _ (by norm_num)
          have h1 : ((c : Int) - 97 +
              (((key.getD (ki % key.length) 65 : Nat) : Int) - 65)) % 26 < 26 :=
            Int.emod_lt_of_pos _ (by norm_num)
          have hea : pyIsAlpha (((c : Int) - 97 +
              (((key.getD (ki % key.length) 65 : Nat) : Int) - 65)) % 26 + 97).toNat = true := by
            simp only [pyIsAlpha, Bool.or_eq_true, Bool.and_eq_true, decide_eq_true_eq]
            omega
          have heu : pyIsUpper (((c : Int) - 97 +
              (((key.getD (ki % key.length) 65 : Nat) : Int) - 65)) % 26 + 97).toNat = false := by
            simp only [Bool.eq_false_iff, ne_eq, pyIsUpper, Bool.or_eq_true, Bool.and_eq_true,
              decide_eq_true_eq]
            omega
          simp only [vigDecLoop, if_pos hea, heu, Bool.false_eq_true, if_false]
          refine congrArg₂ List.cons ?_ (ih (ki + 1) hrest)
          omega
      · simp only [vigEncLoop, ha, Bool.false_eq_true, if_false]
        simp only [vigDecLoop, ha, Bool.false_eq_true, if_false]
        exact congrArg₂ List.cons rfl (ih ki hrest)

/-- C6 amended: decrypting the encryption with the same key restores the
input exactly for strings whose characters are Latin-1 with all letters
being cased ASCII letters (for non-ASCII letters such as `é` the shift
arithmetic is not inverted — see the counterexample), the key having at
least one letter; the claim's own example holds: `Attack at Dawn!` under
`LEMON` keeps `!` and both spaces unchanged, consumes no key letter for
them (visible in the shift pattern of `Lxfopv ef Rnhr!`), and decrypts
back exactly, case preserved. -/
theorem C6_vigenere_roundtrip_ascii (x key : PyStr)
    (hx : ∀ c ∈ x, c < 256 ∧ (pyIsAlpha c = true → (65 ≤ c ∧ c ≤ 90) ∨ (97 ≤ c ∧ c ≤ 122)))
    (hk : vigNormKey key ≠ []) :
    vigenere_decrypt (vigenere_encrypt x key).ciphertext key = some x ∧
    (vigenere_encrypt (pystr "Attack at Dawn!") (pystr "LEMON")).ciphertext
      = pystr "Lxfopv ef Rnhr!" ∧
    vigenere_decrypt (pystr "Lxfopv ef Rnhr!") (pystr "LEMON")
      = some (pystr "Attack at Dawn!") := by
  refine ⟨?_, by decide, by decide⟩
  have henc : (vigenere_encrypt x key).ciphertext = vigEncLoop (vigNormKey key) 0 x := by
    simp [vigenere_encrypt, hk]
  rw [henc]
  simp [vigenere_decrypt, hk, vigLoop_roundtrip (vigNormKey key) x 0 hx]

/-- Witness for C6's amended statement at the claim's own example. -/
theorem C6_vigenere_roundtrip_ascii_witness :
    vigenere_decrypt (vigenere_encrypt (pystr "Attack at Dawn!") (pystr "LEMON")).ciphertext
      (pystr "LEMON") = some (pystr "Attack at Dawn!") :=
  (C6_vigenere_roundtrip_ascii (pystr "Attack at Dawn!") (pystr "LEMON")
    (by decide) (by decide)).1

/-- C6 counterexample: the claim quantifies over *every* string, but the
round trip fails on the non-ASCII letter `é` (codepoint 233, alphabetic
and lowercase for Python): encryption maps it into the ASCII range
(`h` under key `B`), and decryption of that ASCII letter yields `g`, not
`é`. -/
theorem C6_nonascii_counterexample :
    (vigenere_encrypt (pystr "é") (pystr "B")).ciphertext = pystr "h" ∧
    vigenere_decrypt (vigenere_encrypt (pystr "é") (pystr "B")).ciphertext (pystr "B")
      = some (pystr "g") ∧
    pystr "g" ≠ pystr "é" := by
  refine ⟨by decide, by decide, by decide⟩

/-! ### Claim C8 -/

/-- The base64 alphabet map is injective with its decoder, and never
produces the padding character. -/
theorem b64CharVal_b64ValChar :
    ∀ n, n < 64 → b64CharVal? (b64ValChar n) = some n ∧ b64ValChar n ≠ 61 := by decide

/-- Base64-encoded output survives the decoder's alphabet filter. -/
theorem b64encode_filter : ∀ (l : List Nat), (∀ b ∈ l, b < 256) →
    (b64encodeBytes l).filter (fun c => (b64CharVal? c).isSome || c == 61) = b64encodeBytes l
  | [], _ => rfl
  | [a], h => by
      have ha : a < 256 := h a (by simp)
      have h1 := b64CharVal_b64ValChar (a / 4) (by omega)
      have h2 := b64CharVal_b64ValChar (a % 4 * 16) (by omega)
      simp [b64encodeBytes, List.filter_cons, h1.1, h2.1]
  | [a, b], h => by
      have ha : a < 256 := h a (by simp)
      have hb : b < 256 := h b (by simp)
      have h1 := b64CharVal_b64ValChar (a / 4) (by omega)
      have h2 := b64CharVal_b64ValChar (a % 4 * 16 + b / 16) (by omega)
      have h3 := b64CharVal_b64ValChar (b % 16 * 4) (by omega)
      simp [b64encodeBytes, List.filter_cons, h1.1, h2.1, h3.1]
  | a :: b :: c :: rest, h => by
      have ha : a < 256 := h a (by simp)
      have hb : b < 256 := h b (by simp)
      have hcc : c < 256 := h c (by simp)
      have h1 := b64CharVal_b64ValChar (a / 4) (by omega)
      have h2 := b64CharVal_b64ValChar (a % 4 * 16 + b / 16) (by omega)
      have h3 := b64CharVal_b64ValChar (b % 16 * 4 + c / 64) (by omega)
      have h4 := b64CharVal_b64ValChar (c % 64) (by omega)
      have ih := b64encode_filter rest (fun d hd => h d (by simp [hd]))
      simp [b64encodeBytes, List.filter_cons, h1.1, h2.1, h3.1, h4.1, ih]

/-- Quad-wise decoding inverts encoding on byte lists. -/
theorem b64Quads_encode : ∀ (l : List Nat), (∀ b ∈ l, b < 256) →
    b64Quads (b64encodeBytes l) = some l
  | [], _ => rfl
  | [a], h => by
      have ha : a < 256 := h a (by simp)
      have h1 := b64CharVal_b64ValChar (a / 4) (by omega)
      have h2 := b64CharVal_b64ValChar (a % 4 * 16) (by omega)
      simp only [b64encodeBytes, b64Quads, if_pos rfl, h1.1, h2.1]
      simp only [and_true, if_pos rfl]
      simp
      omega
  | [a, b], h => by
      have ha : a < 256 := h a (by simp)
      have hb : b < 256 := h b (by simp)
      have h1 := b64CharVal_b64ValChar (a / 4) (by omega)
      have h2 := b64CharVal_b64ValChar (a % 4 * 16 + b / 16) (by omega)
      have h3 := b64CharVal_b64ValChar (b % 16 * 4) (by omega)
      simp only [b64encodeBytes, b64Quads, if_neg h3.2, if_pos rfl, h1.1, h2.1, h3.1]
      simp
      omega
  | a :: b :: c :: rest, h => by
      have ha : a < 256 := h a (by simp)
      have hb : b < 256 := h b (by simp)
      have hcc : c < 256 := h c (by simp)
      have h1 := b64CharVal_b64ValChar (a / 4) (by omega)
      have h2 := b64CharVal_b64ValChar (a % 4 * 16 + b / 16) (by omega)
      have h3 := b64CharVal_b64ValChar (b % 16 * 4 + c / 64) (by omega)
      have h4 := b64CharVal_b64ValChar (c % 64) (by omega)
      have ih := b64Quads_encode rest (fun d hd => h d (by simp [hd]))
      simp only [b64encodeBytes, b64Quads, if_neg h3.2, if_neg h4.2, h1.1, h2.1, h3.1, h4.1,
        ih, Option.map_some]
      simp
      omega

/-- Python's lenient decoder inverts the encoder on byte lists. -/
theorem b64_roundtrip (l : List Nat) (h : ∀ b ∈ l, b < 256) :
    b64decodeBytes? (b64encodeBytes l) = some l := by
  unfold b64decodeBytes?
  rw [b64encode_filter l h, b64Quads_encode l h]

/-- C8: `rsa_encrypt` silently truncates plaintext longer than
`size_in_bytes - 42` to exactly that capacity before encrypting, so under
the OAEP contract (decryption inverts encryption on payloads within
capacity, supplied as a hypothesis on the abstracted primitives) the full
decryption pipeline recovers exactly the truncated prefix — which is not
the original.  `rsa_encrypt_layer_data` (`ltool.py`) truncates
identically. -/
theorem C8_rsa_truncates_oversized (oaepE : List Nat → List Nat)
    (oaepD : List Nat → Option (List Nat)) (size : Nat) (pt : List Nat)
    (hrt : oaepD (oaepE (pt.take (size - 42))) = some (pt.take (size - 42)))
    (hct : ∀ b ∈ oaepE (pt.take (size - 42)), b < 256)
    (hlong : size - 42 < pt.length) :
    rsa_encrypt oaepE size pt = b64encodeBytes (oaepE (pt.take (size - 42))) ∧
    (b64decodeBytes? (rsa_encrypt oaepE size pt)).bind oaepD
      = some (pt.take (size - 42)) ∧
    rsa_decrypt oaepD (rsa_encrypt oaepE size pt)
      = utf8DecodeStrict? (pt.take (size - 42)) ∧
    rsa_encrypt_layer_data oaepE size pt = rsa_encrypt oaepE size pt ∧
    pt.take (size - 42) ≠ pt := by
  have henc : rsa_encrypt oaepE size pt = b64encodeBytes (oaepE (pt.take (size - 42))) := by
    simp [rsa_encrypt, hlong]
  refine ⟨henc, ?_, ?_, rfl, ?_⟩
  · rw [henc, b64_roundtrip _ hct]
    simpa using hrt
  · rw [henc]
    simp [rsa_decrypt, b64_roundtrip _ hct, hrt]
  · intro heq
    have hlen : (pt.take (size - 42)).length = pt.length := by rw [heq]
    rw [List.length_take] at hlen
    omega

/-- Witness for C8 with a 43-byte key (capacity 1) and identity OAEP
primitives: the 2-byte payload is cut to its first byte and the round
trip returns that byte only. -/
theorem C8_rsa_truncates_oversized_witness :
    rsa_encrypt (fun m => m) 43 [65, 66] = b64encodeBytes (([65, 66] : List Nat).take (43 - 42)) ∧
    (b64decodeBytes? (rsa_encrypt (fun m => m) 43 [65, 66])).bind some
      = some (([65, 66] : List Nat).take (43 - 42)) ∧
    rsa_decrypt some (rsa_encrypt (fun m => m) 43 [65, 66])
      = utf8DecodeStrict? (([65, 66] : List Nat).take (43 - 42)) ∧
    rsa_encrypt_layer_data (fun m => m) 43 [65, 66] = rsa_encrypt (fun m => m) 43 [65, 66] ∧
    ([65, 66] : List Nat).take (43 - 42) ≠ [65, 66] :=
  C8_rsa_truncates_oversized (fun m => m) some 43 [65, 66] rfl (by decide) (by decide)

/-- C4 counterexample: the claim says that between an encoded-class layer
(AES) and a polyalphabetic layer the pipeline performs exactly one
decode-to-raw-text conversion.  With an AES inverse producing `aGk=`
(the radix-64 encoding of `hi`), the code's pipeline hands `aGk=` itself
to the Vigenère inverse and yields `zFj=`, while the claim's mandated
conversion (embodied by `decryptLayersConv`, written from the spec's
words) would decode to `hi` first and yield `gh`.  The two results
differ, so the claimed conversion does not happen. -/
theorem C4_conversion_counterexample :
    decryptLayers ⟨fun _ _ _ => some (pystr "aGk="), fun _ _ => none⟩ (pystr "x")
      [.obj [("type", .str (pystr "aes")), ("key", .str (pystr "a2V5")),
          ("iv", .str (pystr "aXY="))],
       .obj [("type", .str (pystr "vigenere")), ("key", .str (pystr "B"))]]
      = some (pystr "zFj=") ∧
    decryptLayersConv ⟨fun _ _ _ => some (pystr "aGk="), fun _ _ => none⟩ (pystr "x")
      [.obj [("type", .str (pystr "aes")), ("key", .str (pystr "a2V5")),
          ("iv", .str (pystr "aXY="))],
       .obj [("type", .str (pystr "vigenere")), ("key", .str (pystr "B"))]]
      = some (pystr "gh") ∧
    pystr "zFj=" ≠ pystr "gh" := by
  refine ⟨by decide, by decide, by decide⟩
